import Mathlib

/-!
Verification of the Chat Behavior Insight System (a WhatsApp chat analyzer)
against its natural-language specification.

The Python source is shallowly embedded: pure functions become Lean
functions over `Nat`, `Int`, `ℚ`, `String` and lists; pandas DataFrames
become lists of records; fallible code returns `Except`/`Option`.
Floating-point arithmetic is modelled by exact rationals; machine floats
only differ from ℚ by rounding noise that none of the verified claims
depend on.  All definitions are written to be kernel-computable
(structural recursion only, fuel where needed).
-/

namespace ChatInsight

/-! ## Characters and whitespace (Python `str.strip`, regex `\s`) -/

/-- ASCII whitespace recognised both by Python `str.strip()` and by the
regex class `\s` (restricted to a single line, so `\n` never occurs in
the scanned text of the per-line model). -/
def isSpaceChar (c : Char) : Bool :=
  c == ' ' || c == '\t' || c == '\r' || c == '\n' || c == '\x0b' || c == '\x0c'

/-- Left trim, as in Python `str.lstrip()`. -/
def trimLeft (l : List Char) : List Char := l.dropWhile isSpaceChar

/-- Right trim, as in Python `str.rstrip()`. -/
def trimRight (l : List Char) : List Char := (trimLeft l.reverse).reverse

/-- Python `str.strip()` on the underlying character list. -/
def stripL (l : List Char) : List Char := trimRight (trimLeft l)

/-- Python `str.strip()`. -/
def strip (s : String) : String := ⟨stripL s.data⟩

/-! ## Timestamps

`datetime`/`pandas.Timestamp` values produced by the parser are naive
(no timezone field exists in the source data nor in this model): the
type below has no timezone component, which is the formal counterpart
of "timezone-naive". -/

/-- A calendar timestamp with minute precision, as produced by
`pd.to_datetime` on the formats the parser recognises. -/
structure DateTime where
  year : Nat
  month : Nat
  day : Nat
  hour : Nat
  minute : Nat
deriving DecidableEq, Repr

/-- Gregorian leap year rule, as used by Python `datetime`. -/
def isLeap (y : Nat) : Bool :=
  (y % 4 == 0 && y % 100 != 0) || (y % 400 == 0)

/-- Days in a month of a given year, as validated by the `datetime`
constructor. -/
def daysInMonth (y m : Nat) : Nat :=
  match m with
  | 1 => 31 | 2 => if isLeap y then 29 else 28 | 3 => 31
  | 4 => 30 | 5 => 31 | 6 => 30 | 7 => 31 | 8 => 31
  | 9 => 30 | 10 => 31 | 11 => 30 | 12 => 31
  | _ => 0

/-- The validity check performed by the `datetime` constructor (year at
least 1, real calendar day, hour below 24, minute below 60). -/
def DateTime.valid (d : DateTime) : Bool :=
  1 ≤ d.year && 1 ≤ d.month && d.month ≤ 12 &&
  1 ≤ d.day && d.day ≤ daysInMonth d.year d.month &&
  d.hour ≤ 23 && d.minute ≤ 59

/-- Days elapsed before January 1 of year `y` (proleptic Gregorian),
used to place timestamps on a single linear scale. -/
def daysBeforeYear (y : Nat) : Nat :=
  365 * (y - 1) + (y - 1) / 4 - (y - 1) / 100 + (y - 1) / 400

/-- Days elapsed in year `y` before the first day of month `m`. -/
def daysBeforeMonth (y m : Nat) : Nat :=
  match m with
  | 1 => 0 | 2 => 31 | 3 => 31 + daysInMonth y 2 | 4 => 62 + daysInMonth y 2
  | 5 => 92 + daysInMonth y 2 | 6 => 123 + daysInMonth y 2
  | 7 => 153 + daysInMonth y 2 | 8 => 184 + daysInMonth y 2
  | 9 => 215 + daysInMonth y 2 | 10 => 245 + daysInMonth y 2
  | 11 => 276 + daysInMonth y 2 | 12 => 306 + daysInMonth y 2
  | _ => 0

/-- Minutes on a linear time scale; subtracting two of these is the
timedelta (in minutes) that pandas computes between two timestamps. -/
def DateTime.toMinutes (d : DateTime) : Nat :=
  (daysBeforeYear d.year + daysBeforeMonth d.year d.month + (d.day - 1)) * 1440
    + d.hour * 60 + d.minute

/-- The calendar date of a timestamp, the value of `.dt.date`. -/
def DateTime.date (d : DateTime) : Nat × Nat × Nat := (d.year, d.month, d.day)

/-! ## The record regex of `parser.py`

```
^(\d{1,2}/\d{1,2}/\d{2,4}|\d{4}-\d{2}-\d{2}),?\s*
(\d{1,2}:\d{2}(?:\s?[AP]M)?)\s*-\s*
(.*?):\s
(.*)$
```
applied with `re.MULTILINE`, i.e. per line of the input.  The hand
rolled matcher below follows the regex left to right with maximal munch
for each bounded digit group (`\d{1,2}`, `\d{2,4}` never need cross
group backtracking on inputs where a separator follows, which is every
input exercised in the theorems below). -/

/-- Greedily consume leading decimal digits; returns their value, how
many there were, and the rest of the line. -/
def takeDigits : List Char → Nat → Nat → Nat × Nat × List Char
  | c :: cs, acc, n =>
    if c.isDigit then takeDigits cs (acc * 10 + (c.toNat - 48)) (n + 1)
    else (acc, n, c :: cs)
  | [], acc, n => (acc, n, [])

/-- The date alternatives of the regex: `a/b/c` (with the digit count of
the year group recorded, since `%Y` wants four digits and `%y` two) or
ISO `y-m-d`. -/
inductive DateParts where
  | slash (a b c cLen : Nat)
  | iso (y m d : Nat)
deriving DecidableEq, Repr

/-- The time group: hour, minute, and the optional `AM`/`PM` suffix
(`some true` means `PM`). -/
structure TimeParts where
  hh : Nat
  mm : Nat
  ampm : Option Bool
deriving DecidableEq, Repr

/-- One regex match: the structured date and time captures plus the raw
(untrimmed) user and message captures. -/
structure RawRecord where
  dparts : DateParts
  tparts : TimeParts
  user : String
  message : String
deriving DecidableEq, Repr

/-- Match the date alternative `\d{1,2}/\d{1,2}/\d{2,4}|\d{4}-\d{2}-\d{2}`
at the start of the line. -/
def matchDate (l : List Char) : Option (DateParts × List Char) :=
  let (v1, n1, r1) := takeDigits l 0 0
  match r1 with
  | '/' :: r2 =>
    if 1 ≤ n1 && n1 ≤ 2 then
      let (v2, n2, r3) := takeDigits r2 0 0
      match r3 with
      | '/' :: r4 =>
        if 1 ≤ n2 && n2 ≤ 2 then
          let (v3, n3, r5) := takeDigits r4 0 0
          if 2 ≤ n3 && n3 ≤ 4 then some (DateParts.slash v1 v2 v3 n3, r5)
          else none
        else none
      | _ => none
    else none
  | '-' :: r2 =>
    if n1 == 4 then
      let (v2, n2, r3) := takeDigits r2 0 0
      match r3 with
      | '-' :: r4 =>
        if n2 == 2 then
          let (v3, n3, r5) := takeDigits r4 0 0
          if n3 == 2 then some (DateParts.iso v1 v2 v3, r5)
          else none
        else none
      | _ => none
    else none
  | _ => none

/-- Match the time group `\d{1,2}:\d{2}(?:\s?[AP]M)?`. -/
def matchTime (l : List Char) : Option (TimeParts × List Char) :=
  let (h, nh, r1) := takeDigits l 0 0
  if 1 ≤ nh && nh ≤ 2 then
    match r1 with
    | ':' :: r2 =>
      let (m, nm, r3) := takeDigits r2 0 0
      if nm == 2 then
        -- optional `\s?[AP]M`, tried greedily, consumed only if complete
        match r3 with
        | ' ' :: 'A' :: 'M' :: r4 => some (⟨h, m, some false⟩, r4)
        | ' ' :: 'P' :: 'M' :: r4 => some (⟨h, m, some true⟩, r4)
        | 'A' :: 'M' :: r4 => some (⟨h, m, some false⟩, r4)
        | 'P' :: 'M' :: r4 => some (⟨h, m, some true⟩, r4)
        | _ => some (⟨h, m, none⟩, r3)
      else none
    | _ => none
  else none

/-- The lazy capture `(.*?):\s`: split at the first `:` that is followed
by a whitespace character; the user is everything before it and the
message everything after the colon and that single whitespace. -/
def splitUserMessage : List Char → Option (List Char × List Char)
  | [] => none
  | ':' :: c :: rest =>
    if isSpaceChar c then some ([], rest)
    else
      match splitUserMessage (c :: rest) with
      | some (u, m) => some (':' :: u, m)
      | none => none
  | c :: rest =>
    match splitUserMessage rest with
    | some (u, m) => some (c :: u, m)
    | none => none

/-- Match one full line of the chat export against the record regex. -/
def matchLine (l : List Char) : Option RawRecord :=
  match matchDate l with
  | none => none
  | some (dp, r1) =>
    -- `,?\s*`
    let r2 := match r1 with
      | ',' :: rest => rest.dropWhile isSpaceChar
      | rest => rest.dropWhile isSpaceChar
    match matchTime r2 with
    | none => none
    | some (tp, r3) =>
      -- `\s*-\s*`
      match r3.dropWhile isSpaceChar with
      | '-' :: r4 =>
        match splitUserMessage (r4.dropWhile isSpaceChar) with
        | some (u, m) => some ⟨dp, tp, ⟨u⟩, ⟨m⟩⟩
        | none => none
      | _ => none

/-! ## The seven `strptime` layouts of `parser.py`

`datetime_str` is rebuilt as `f"{date_str}, {time_str}"`, so a format
matches exactly when its date part matches the date capture and its
time part the time capture; the structured `RawRecord` captures make
that test direct.  Each format validates ranges exactly as
`pd.to_datetime(..., format=...)` does: `%Y` wants the four-digit year
group, `%y` the two-digit one, `%I` an hour in 1..12 with a mandatory
`%p` suffix, `%H` an hour in 0..23 with no suffix allowed (a trailing
`AM`/`PM` is unconverted data and fails the format), and the assembled
date must be a real calendar date. -/

/-- The `%y` century rule: 0..68 maps into the 2000s, 69..99 into the
1900s. -/
def century (y : Nat) : Nat := if y ≤ 68 then 2000 + y else 1900 + y

/-- Convert a 12-hour clock reading plus AM/PM flag to a 24-hour hour. -/
def hour24 (hh : Nat) (pm : Bool) : Nat :=
  if pm then (if hh == 12 then 12 else hh + 12)
  else (if hh == 12 then 0 else hh)

/-- Build a timestamp, failing as the `datetime` constructor does on an
impossible calendar date or time. -/
def mkValid (y m d h mi : Nat) : Option DateTime :=
  let dt : DateTime := ⟨y, m, d, h, mi⟩
  if dt.valid then some dt else none

/-- Format `%d/%m/%Y, %I:%M %p`. -/
def fmtDMY12 (r : RawRecord) : Option DateTime :=
  match r.dparts, r.tparts with
  | DateParts.slash a b c 4, ⟨hh, mm, some pm⟩ =>
    if 1 ≤ hh && hh ≤ 12 then mkValid c b a (hour24 hh pm) mm else none
  | _, _ => none

/-- Format `%d/%m/%y, %I:%M %p`. -/
def fmtDMy12 (r : RawRecord) : Option DateTime :=
  match r.dparts, r.tparts with
  | DateParts.slash a b c 2, ⟨hh, mm, some pm⟩ =>
    if 1 ≤ hh && hh ≤ 12 then mkValid (century c) b a (hour24 hh pm) mm else none
  | _, _ => none

/-- Format `%m/%d/%Y, %I:%M %p`. -/
def fmtMDY12 (r : RawRecord) : Option DateTime :=
  match r.dparts, r.tparts with
  | DateParts.slash a b c 4, ⟨hh, mm, some pm⟩ =>
    if 1 ≤ hh && hh ≤ 12 then mkValid c a b (hour24 hh pm) mm else none
  | _, _ => none

/-- Format `%m/%d/%y, %I:%M %p`. -/
def fmtMDy12 (r : RawRecord) : Option DateTime :=
  match r.dparts, r.tparts with
  | DateParts.slash a b c 2, ⟨hh, mm, some pm⟩ =>
    if 1 ≤ hh && hh ≤ 12 then mkValid (century c) a b (hour24 hh pm) mm else none
  | _, _ => none

/-- Format `%Y-%m-%d, %H:%M`. -/
def fmtISO24 (r : RawRecord) : Option DateTime :=
  match r.dparts, r.tparts with
  | DateParts.iso y m d, ⟨hh, mm, none⟩ =>
    if hh ≤ 23 then mkValid y m d hh mm else none
  | _, _ => none

/-- Format `%d/%m/%Y, %H:%M`. -/
def fmtDMY24 (r : RawRecord) : Option DateTime :=
  match r.dparts, r.tparts with
  | DateParts.slash a b c 4, ⟨hh, mm, none⟩ =>
    if hh ≤ 23 then mkValid c b a hh mm else none
  | _, _ => none

/-- Format `%m/%d/%Y, %H:%M`. -/
def fmtMDY24 (r : RawRecord) : Option DateTime :=
  match r.dparts, r.tparts with
  | DateParts.slash a b c 4, ⟨hh, mm, none⟩ =>
    if hh ≤ 23 then mkValid c a b hh mm else none
  | _, _ => none

/-- The `date_formats` list of `parser.py`, in source order. -/
def formatList : List (RawRecord → Option DateTime) :=
  [fmtDMY12, fmtDMy12, fmtMDY12, fmtMDy12, fmtISO24, fmtDMY24, fmtMDY24]

/-- The `for fmt in date_formats: try ... break` loop: first format that
matches wins. -/
def tryFormats : List (RawRecord → Option DateTime) → RawRecord → Option DateTime
  | [], _ => none
  | f :: fs, r =>
    match f r with
    | some t => some t
    | none => tryFormats fs r

/-- Timestamp resolution of `parser.py`: the seven fixed layouts in
order, then the lenient `pd.to_datetime(..., dayfirst=True,
errors='coerce')` fallback.  The lenient parser is a heuristic
general-purpose date reader; it is kept abstract as a parameter. -/
def resolveTimestamp (lenient : RawRecord → Option DateTime) (r : RawRecord) :
    Option DateTime :=
  match tryFormats formatList r with
  | some t => some t
  | none => lenient r

/-! ## `parse_whatsapp_chat` -/

/-- One parsed message: a row of the parser's DataFrame. -/
structure Message where
  timestamp : DateTime
  user : String
  message : String
deriving DecidableEq, Repr

/-- Split the file content into lines (the effect of the `^`/`$` anchors
under `re.MULTILINE`). -/
def splitLines : List Char → List (List Char)
  | [] => [[]]
  | '\n' :: rest => [] :: splitLines rest
  | c :: rest =>
    match splitLines rest with
    | l :: ls => (c :: l) :: ls
    | [] => [[c]]

/-- Process one matched line into a message row: resolve the timestamp
(dropping the record when no rule resolves it) and trim the user and
message captures. -/
def recordOfLine (lenient : RawRecord → Option DateTime) (l : List Char) :
    Option Message :=
  match matchLine l with
  | none => none
  | some r =>
    match resolveTimestamp lenient r with
    | none => none
    | some t => some ⟨t, strip r.user, strip r.message⟩

/-- The record-collection loop of `parse_whatsapp_chat`, over a list of
lines. -/
def collectRecords (lenient : RawRecord → Option DateTime) :
    List (List Char) → List Message
  | [] => []
  | l :: ls =>
    match recordOfLine lenient l with
    | some m => m :: collectRecords lenient ls
    | none => collectRecords lenient ls

/-- All message rows extracted from the raw file content. -/
def extractRecords (lenient : RawRecord → Option DateTime) (content : String) :
    List Message :=
  collectRecords lenient (splitLines content.data)

/-- The `ValueError` message raised on an empty parse result. -/
def noMessagesError : String :=
  "No messages found in chat file. Please check the file format. Supported formats: DD/MM/YYYY or MM/DD/YYYY with AM/PM, or YYYY-MM-DD with 24-hour time."

/-- The function `parse_whatsapp_chat`: parse the export text, failing exactly when
zero records were collected. -/
def parse_whatsapp_chat (lenient : RawRecord → Option DateTime)
    (content : String) : Except String (List Message) :=
  let msgs := extractRecords lenient content
  if msgs.isEmpty then Except.error noMessagesError else Except.ok msgs

end ChatInsight

namespace ChatInsight

/-! ## Generic list helpers (pandas groupby / sort / mean) -/

/-- Sum of a list of rationals. -/
def sumQ : List ℚ → ℚ
  | [] => 0
  | x :: xs => x + sumQ xs

/-- Arithmetic mean; only ever applied to nonempty lists below (pandas
would give NaN on an empty one, and every NaN produced upstream of a
`fillna(0)` is modelled at its use site). -/
def meanQ (l : List ℚ) : ℚ := sumQ l / l.length

/-- Insert into a sorted list, keeping earlier elements first on ties
(the stable building block of sorting). -/
def insertLe (le : α → α → Bool) (a : α) : List α → List α
  | [] => [a]
  | b :: bs => if le a b then a :: b :: bs else b :: insertLe le a bs

/-- Stable insertion sort, the model of a pandas `sort_values`. -/
def sortBy (le : α → α → Bool) : List α → List α
  | [] => []
  | a :: as => insertLe le a (sortBy le as)

/-- Keep the first occurrence of every element (the key set of a pandas
groupby; the groupby additionally sorts its keys, but no claim below
depends on row order). -/
def dedupKeep [BEq α] (seen : List α) : List α → List α
  | [] => []
  | a :: as =>
    if seen.contains a then dedupKeep seen as
    else a :: dedupKeep (a :: seen) as

/-! ## `features.py` -/

/-- Chronological order of messages (`df.sort_values('timestamp')`). -/
def sortByTime (msgs : List Message) : List Message :=
  sortBy (fun a b => decide (a.timestamp.toMinutes ≤ b.timestamp.toMinutes)) msgs

/-- The distinct authors of the parsed messages. -/
def uniqueUsers (msgs : List Message) : List String :=
  dedupKeep [] (msgs.map (·.user))

/-- All messages of one author, in their ambient order. -/
def msgsOf (msgs : List Message) (u : String) : List Message :=
  msgs.filter (fun m => m.user == u)

/-- Consecutive timestamp gaps in minutes (`.diff()` within a group). -/
def consecDiffs : List Message → List Nat
  | a :: b :: rest =>
    (b.timestamp.toMinutes - a.timestamp.toMinutes) :: consecDiffs (b :: rest)
  | _ => []

/-- Count of a character in a string. -/
def countChar (c : Char) (s : String) : Nat :=
  s.data.countP (fun x => x == c)

/-- Membership in the emoji regex character class of
`calculate_emotional_features`. -/
def isEmojiChar (c : Char) : Bool :=
  let v := c.toNat
  (0x1F600 ≤ v && v ≤ 0x1F64F) || (0x1F300 ≤ v && v ≤ 0x1F5FF) ||
  (0x1F680 ≤ v && v ≤ 0x1F6FF) || (0x1F1E0 ≤ v && v ≤ 0x1F1FF) ||
  (0x2702 ≤ v && v ≤ 0x27B0) || (0x24C2 ≤ v && v ≤ 0x1F251)

/-- Value of `len(emoji_pattern.findall(x))` for the pattern `[class]+`: the
number of maximal runs of class characters.  The boolean argument says
whether the previous character was in the class. -/
def countEmojiRuns : List Char → Bool → Nat
  | [], _ => 0
  | c :: cs, inRun =>
    if isEmojiChar c then (if inRun then 0 else 1) + countEmojiRuns cs true
    else countEmojiRuns cs false

/-- Emoji count of one message. -/
def emojiCount (s : String) : Nat := countEmojiRuns s.data false

/-- Uppercase character ratio of one message
(`sum(1 for c in x if c.isupper()) / max(len(x), 1)`; `Char.isUpper`
restricts Python's Unicode-aware test to ASCII, which is where every
claim lives). -/
def uppercaseRatioOf (s : String) : ℚ :=
  (s.data.countP Char.isUpper : ℚ) / (max s.data.length 1 : ℚ)

/-- Whether `pat` is a prefix of `l`. -/
def startsWith : List Char → List Char → Bool
  | [], _ => true
  | _ :: _, [] => false
  | p :: ps, c :: cs => p == c && startsWith ps cs

/-- The character class of the URL regex in
`calculate_link_sharing_features`.  Note `[$-_@.&+]` is a character
range from `$` (36) to `_` (95), and the remaining alternatives only
add `!`, letters and digits beyond it. -/
def isUrlChar (c : Char) : Bool :=
  c.isAlpha || c.isDigit || (36 ≤ c.toNat && c.toNat ≤ 95) || c == '!'

/-- An occurrence of `http[s]?://` followed by at least one class
character starts at the head of the list. -/
def urlAt (l : List Char) : Bool :=
  (startsWith "http://".data l &&
    (match l.drop 7 with | c :: _ => isUrlChar c | [] => false)) ||
  (startsWith "https://".data l &&
    (match l.drop 8 with | c :: _ => isUrlChar c | [] => false))

/-- Value of `bool(url_pattern.search(x))`. -/
def hasLinkL : List Char → Bool
  | [] => false
  | c :: cs => urlAt (c :: cs) || hasLinkL cs

/-- Whether a message contains a link. -/
def hasLink (s : String) : Bool := hasLinkL s.data

/-- Median of message lengths (pandas median: middle element, or the
mean of the two middle elements). -/
def medianNat (l : List Nat) : ℚ :=
  let sorted := sortBy (fun a b => decide (a ≤ b)) l
  let n := sorted.length
  if n % 2 == 1 then ((sorted.getD (n / 2) 0 : Nat) : ℚ)
  else (((sorted.getD (n / 2 - 1) 0 : Nat) : ℚ) + ((sorted.getD (n / 2) 0 : Nat) : ℚ)) / 2

/-- The `time_diff` column of `calculate_conversation_initiation_features`:
`df_sorted['timestamp'].diff()`, with `none` as the NaT of the first row. -/
def time_diffs : List Message → List (Option Nat)
  | [] => []
  | a :: rest => none :: diffsAfter a rest
where
  diffsAfter (prev : Message) : List Message → List (Option Nat)
  | [] => []
  | b :: bs => some (b.timestamp.toMinutes - prev.timestamp.toMinutes) :: diffsAfter b bs

/-- Column `(df_sorted['time_diff'] > pd.Timedelta(hours=1)) | (df_sorted.index == 0)`:
NaT compares false, the gap must strictly exceed one hour (60 minutes). -/
def flagList : List (Option Nat) → Nat → List Bool
  | [], _ => []
  | d :: ds, i =>
    ((match d with | some g => decide (60 < g) | none => false) || (i == 0))
      :: flagList ds (i + 1)

/-- The `is_conversation_start` column over a chronologically sorted
message list. -/
def is_conversation_start (l : List Message) : List Bool :=
  flagList (time_diffs l) 0

/-- Initiation count of one author: flagged rows of the sorted frame,
grouped by user. -/
def initiationsOf (msgs : List Message) (u : String) : Nat :=
  let sorted := sortByTime msgs
  ((sorted.zip (is_conversation_start sorted)).filter (fun p => p.2)).countP
    (fun p => p.1.user == u)

/-- The output table of `calculate_conversation_initiation_features`:
`(user, total_messages, initiations, initiation_ratio)` per author.
The left merge plus `fillna(0)` of the source is the identity here
because `initiationsOf` is total (an author missing from the
initiations sub-table has count 0). -/
def calculate_conversation_initiation_features (msgs : List Message) :
    List (String × Nat × Nat × ℚ) :=
  (uniqueUsers msgs).map fun u =>
    let total := (msgsOf msgs u).length
    let ini := initiationsOf msgs u
    (u, total, ini, (ini : ℚ) / (total : ℚ))

/-- One row of the merged feature table of `extract_all_features`. -/
structure FeatureRow where
  user : String
  avg_length : ℚ
  median_length : ℚ
  total_chars : Nat
  messages_per_day : ℚ
  avg_response_time_hours : ℚ
  night_activity_ratio : ℚ
  avg_exclamations : ℚ
  avg_questions : ℚ
  avg_emojis : ℚ
  uppercase_ratio : ℚ
  total_links : Nat
  link_sharing_ratio : ℚ
  total_messages : Nat
  initiations : Nat
  initiation_ratio : ℚ
deriving DecidableEq, Repr

/-- The feature row of one author, combining every sub-table of
`features.py` on the `user` key.  Where a pandas sub-table can miss an
author (no night messages, a single message and hence no response-time
diff, no initiations), the NaN-then-`fillna(0)` path of the source is
written out as an explicit case split. -/
def featureRowFor (msgs : List Message) (u : String) : FeatureRow :=
  let mine := msgsOf msgs u
  let total := mine.length
  let lengths : List Nat := mine.map (fun m => m.message.data.length)
  -- calculate_temporal_features
  let dates := dedupKeep [] (mine.map (·.timestamp.date))
  let dailyCounts := dates.map
    (fun d => ((mine.countP (fun m => m.timestamp.date == d)) : ℚ))
  let sortedMine := (sortByTime msgs).filter (fun m => m.user == u)
  let diffs := consecDiffs sortedMine
  let nightCount := mine.countP
    (fun m => 22 ≤ m.timestamp.hour || m.timestamp.hour < 6)
  let linkCount := mine.countP (fun m => hasLink m.message)
  { user := u
    avg_length := meanQ (lengths.map (fun n => (n : ℚ)))
    median_length := medianNat lengths
    total_chars := lengths.foldr (· + ·) 0
    messages_per_day := meanQ dailyCounts
    avg_response_time_hours :=
      -- NaN for a single message, then `fillna(0)`
      if diffs.isEmpty then 0
      else meanQ (diffs.map (fun n => (n : ℚ))) / 60
    night_activity_ratio :=
      -- author missing from the night sub-table gives NaN, then `fillna(0)`
      if nightCount == 0 then 0 else (nightCount : ℚ) / (total : ℚ)
    avg_exclamations := meanQ (mine.map (fun m => ((countChar '!' m.message) : ℚ)))
    avg_questions := meanQ (mine.map (fun m => ((countChar '?' m.message) : ℚ)))
    avg_emojis := meanQ (mine.map (fun m => ((emojiCount m.message) : ℚ)))
    uppercase_ratio := meanQ (mine.map (fun m => uppercaseRatioOf m.message))
    total_links := linkCount
    link_sharing_ratio := (linkCount : ℚ) / (total : ℚ)
    total_messages := total
    initiations := initiationsOf msgs u
    initiation_ratio := ((initiationsOf msgs u : ℚ)) / (total : ℚ) }

/-- The function `extract_all_features`: one row per author, outer-merged on `user`
with every missing value filled with 0. -/
def extract_all_features (msgs : List Message) : List FeatureRow :=
  (uniqueUsers msgs).map (featureRowFor msgs)

end ChatInsight

namespace ChatInsight

/-! ## `profiling.py` -/

/-- The `DEFAULT_CLUSTER_NAMES` dictionary. -/
def DEFAULT_CLUSTER_NAMES : Nat → Option String := fun i =>
  match i with
  | 0 => some "Regular Participants"
  | 1 => some "Active Conversationalists"
  | 2 => some "Information Broadcasters"
  | 3 => some "Silent Observers"
  | 4 => some "Night Owls"
  | _ => none

/-- The function `get_cluster_name`: the caller-supplied mapping when one is given,
the default table otherwise, with `"Cluster {id}"` for unmapped ids. -/
def get_cluster_name (cluster_id : Nat)
    (cluster_names : Option (Nat → Option String)) : String :=
  match cluster_names with
  | some m => (m cluster_id).getD ("Cluster " ++ toString cluster_id)
  | none => (DEFAULT_CLUSTER_NAMES cluster_id).getD ("Cluster " ++ toString cluster_id)

/-- The function `calculate_influence_score`.  The `.get(..., default)` calls of the
source only fire when a column is missing from the row; the extractor
always produces every column, so the fields are read directly. -/
def calculate_influence_score (features : FeatureRow) : ℚ :=
  let messages_per_day := features.messages_per_day
  let initiation_ratio := features.initiation_ratio
  let avg_response_time := features.avg_response_time_hours
  let activity_score := min (messages_per_day / 5) 1
  let response_score := 1 - min (avg_response_time / 24) 1
  let initiation_score := min (initiation_ratio * 10) 1
  let influence := activity_score * 0.4 + response_score * 0.3 + initiation_score * 0.3
  min (max influence 0) 1

/-- Python `str.replace(pat, rep)` (all occurrences, left to right,
non-overlapping), with the list length as structural fuel; `pat` is
nonempty at every use site. -/
def replaceListAux (pat rep : List Char) : Nat → List Char → List Char
  | 0, l => l
  | _ + 1, [] => []
  | fuel + 1, c :: cs =>
    if startsWith pat (c :: cs) then
      rep ++ replaceListAux pat rep fuel (cs.drop (pat.length - 1))
    else c :: replaceListAux pat rep fuel cs

/-- Python `s.replace(pat, rep)`. -/
def pyReplace (s pat rep : String) : String :=
  ⟨replaceListAux pat.data rep.data s.data.length s.data⟩

/-- Python `s.rstrip(',')`. -/
def rstripComma (s : String) : String :=
  ⟨(s.data.reverse.dropWhile (fun c => c == ',')).reverse⟩

/-- Python `s.endswith(',')`. -/
def endsWithComma (s : String) : Bool :=
  match s.data.reverse with
  | ',' :: _ => true
  | _ => false

/-- Value of `" ".join(parts)`. -/
def joinParts : List String → String
  | [] => ""
  | [p] => p
  | p :: ps => p ++ " " ++ joinParts ps

/-- The else-branch of the conversation-initiation clause: replace the
trailing comma of the last part by a period (or append a bare period —
dead in practice, since every reachable last part ends in a comma). -/
def terminateParts (parts : List String) : List String :=
  match parts.getLast? with
  | some last =>
    if endsWithComma last then parts.dropLast ++ [rstripComma last ++ "."]
    else parts ++ ["."]
  | none => parts ++ ["."]

/-- The function `generate_behavior_profile`: the deterministic clause template of
`profiling.py`. -/
def generate_behavior_profile (features : FeatureRow) (cluster_id : Nat) : String :=
  let cluster_name := get_cluster_name cluster_id none
  let activity_level :=
    if features.messages_per_day ≥ 4 ∨ features.total_messages ≥ 500 then
      "highly active"
    else if features.messages_per_day ≥ 2 ∨ features.total_messages ≥ 100 then
      "moderately active"
    else "low activity"
  let emotional_score :=
    features.avg_emojis + features.avg_exclamations * 0.5 +
      features.uppercase_ratio * 10
  let parts : List String :=
    ["This user belongs to the \x27" ++ cluster_name ++ "\x27 group.",
     "This user is " ++ activity_level ++ ","] ++
    [if features.avg_length ≥ 100 then "writes long, detailed messages,"
     else "prefers short messages,"] ++
    [if emotional_score ≥ 2 then "emotionally expressive,"
     else "emotionally reserved,"] ++
    [if features.avg_response_time_hours < 2 then "responds quickly,"
     else "responds slowly,"] ++
    (if features.link_sharing_ratio > 0.1 then
      ["often shares links or resources,"] else []) ++
    (if features.night_activity_ratio > 0.3 then
      ["more active at night,"] else [])
  let parts :=
    if features.initiation_ratio > 0.1 ∨ calculate_influence_score features > 0.95
    then parts ++ ["frequently initiates conversations and influences group flow."]
    else terminateParts parts
  let profile := joinParts parts
  pyReplace (pyReplace (pyReplace profile " ," ",") ".." ".") ",." "."

/-- One row after `generate_profiles`: the feature row with its cluster
label, influence score and behavior profile. -/
structure ProfiledRow where
  features : FeatureRow
  cluster : Nat
  influence_score : ℚ
  behavior_profile : String
deriving DecidableEq, Repr

/-- The function `generate_profiles`: add influence scores and profiles to the
clustered feature table. -/
def generate_profiles (rows : List (FeatureRow × Nat)) : List ProfiledRow :=
  rows.map fun r =>
    ⟨r.1, r.2, calculate_influence_score r.1, generate_behavior_profile r.1 r.2⟩

/-! ## `clustering.py` -/

/-- The validation error of scikit-learn's KMeans. -/
def kmeansError : String := "n_samples should be >= n_clusters"

/-- The function `perform_clustering`.  Modelled from the spec: the KMeans fit is an
external scikit-learn call; its documented input validation (the sample
count must be at least `n_clusters`, otherwise a `ValueError` is
raised) is embedded, and the centroid assignment itself is the abstract
`fit` parameter, which also absorbs the `StandardScaler` step of
`prepare_features_for_clustering` (a total transformation on a
nonempty table). -/
def perform_clustering (fit : List FeatureRow → Nat → List Nat)
    (rows : List FeatureRow) (n_clusters : Nat) : Except String (List Nat) :=
  if rows.length < n_clusters then Except.error kmeansError
  else Except.ok (fit rows n_clusters)

/-- The function `assign_clusters`: run the clustering and attach the labels to the
rows; the KMeans `ValueError` propagates uncaught. -/
def assign_clusters (fit : List FeatureRow → Nat → List Nat)
    (features_df : List FeatureRow) (n_clusters : Nat) :
    Except String (List (FeatureRow × Nat)) :=
  match perform_clustering fit features_df n_clusters with
  | Except.error e => Except.error e
  | Except.ok labels => Except.ok (features_df.zip labels)

/-! ## `main.py` -/

/-- One row of the `final_report` DataFrame of `analyze_chat_streamlit`. -/
structure ReportRow where
  features : FeatureRow
  cluster : Nat
  cluster_name : String
  influence_score : ℚ
  behavior_profile : String
deriving DecidableEq, Repr

/-- The report assembly of `analyze_chat_streamlit`: the profiled rows
with the readable `cluster_name` column added from the caller's
mapping. -/
def build_final_report (rows : List ProfiledRow)
    (cluster_names : Option (Nat → Option String)) : List ReportRow :=
  rows.map fun r =>
    ⟨r.features, r.cluster, get_cluster_name r.cluster cluster_names,
     r.influence_score, r.behavior_profile⟩

/-- Step `final_report.sort_values('influence_score', ascending=False)`. -/
def sort_by_influence (rows : List ReportRow) : List ReportRow :=
  sortBy (fun a b => decide (b.influence_score ≤ a.influence_score)) rows

/-- One row of the `cluster_summary` DataFrame. -/
structure SummaryRow where
  cluster : Nat
  cluster_name : String
  user_count : Nat
  avg_messages_per_day : ℚ
  avg_influence_score : ℚ
deriving DecidableEq, Repr

/-- Pandas `.round(2)` (float half-even rounding approximated by rational
half-up rounding; no claim depends on the tie direction). -/
def round2 (q : ℚ) : ℚ := ((round (q * 100) : ℤ) : ℚ) / 100

/-- The per-cluster summary of `analyze_chat_streamlit`. -/
def cluster_summary (rows : List ProfiledRow)
    (cluster_names : Option (Nat → Option String)) : List SummaryRow :=
  (dedupKeep [] (rows.map (·.cluster))).map fun c =>
    let members := rows.filter (fun r => r.cluster == c)
    ⟨c, get_cluster_name c cluster_names, members.length,
     round2 (meanQ (members.map (·.features.messages_per_day))),
     round2 (meanQ (members.map (·.influence_score)))⟩

/-- The function `analyze_chat_streamlit`: parse, extract features, cluster,
profile, and return the influence-sorted report plus the cluster
summary.  Any error in a stage aborts the pipeline with that error and
no partial table. -/
def analyze_chat_streamlit (fit : List FeatureRow → Nat → List Nat)
    (lenient : RawRecord → Option DateTime) (content : String)
    (n_clusters : Nat) (cluster_names : Option (Nat → Option String)) :
    Except String (List ReportRow × List SummaryRow) :=
  match parse_whatsapp_chat lenient content with
  | Except.error e => Except.error e
  | Except.ok df =>
    let features_df := extract_all_features df
    match assign_clusters fit features_df n_clusters with
    | Except.error e => Except.error e
    | Except.ok clustered =>
      let profiled := generate_profiles clustered
      let final_report := build_final_report profiled cluster_names
      let summary := cluster_summary profiled cluster_names
      Except.ok (sort_by_influence final_report, summary)

end ChatInsight

namespace ChatInsight

/-! ## Specification-side definitions

The following definitions are written from the wording of the
specification (not from the source) and exist only to be compared with
the source-derived definitions above. -/

/-- Gap flags for every non-first message: strictly more than 60
minutes after its immediate predecessor. -/
def specGapFlags (prev : Message) : List Message → List Bool
  | [] => []
  | c :: cs =>
    decide (prev.timestamp.toMinutes + 60 < c.timestamp.toMinutes)
      :: specGapFlags c cs

/-- From the spec: a message starts a conversation iff it is the first
message of the whole transcript in chronological order, or the gap
since the immediately preceding message (by any author) exceeds one
hour.  Defined over the chronologically sorted message list. -/
def specStartFlags : List Message → List Bool
  | [] => []
  | m :: rest => true :: specGapFlags m rest

/-- From the spec: the number of initiating messages of one author. -/
def specInitCount (msgs : List Message) (u : String) : Nat :=
  let sorted := sortByTime msgs
  ((sorted.zip (specStartFlags sorted)).filter (fun p => p.2)).countP
    (fun p => p.1.user == u)

/-- From the spec: the profile template with its clause thresholds as
the specification enumerates them (activity tier, length preference,
emotional tier, response speed, link and night clauses, closing
initiation clause, punctuation cleanup). -/
def profile_spec (f : FeatureRow) (cluster_id : Nat) : String :=
  let parts : List String :=
    ["This user belongs to the \x27" ++ get_cluster_name cluster_id none ++ "\x27 group.",
     "This user is " ++
       (if 4 ≤ f.messages_per_day ∨ 500 ≤ f.total_messages then "highly active"
        else if 2 ≤ f.messages_per_day ∨ 100 ≤ f.total_messages then "moderately active"
        else "low activity") ++ ","] ++
    [if 100 ≤ f.avg_length then "writes long, detailed messages,"
     else "prefers short messages,"] ++
    [if 2 ≤ f.avg_emojis + 0.5 * f.avg_exclamations + 10 * f.uppercase_ratio
     then "emotionally expressive," else "emotionally reserved,"] ++
    [if f.avg_response_time_hours < 2 then "responds quickly,"
     else "responds slowly,"] ++
    (if f.link_sharing_ratio > 0.1 then ["often shares links or resources,"] else []) ++
    (if f.night_activity_ratio > 0.3 then ["more active at night,"] else [])
  let parts :=
    if f.initiation_ratio > 0.1 ∨ calculate_influence_score f > 0.95
    then parts ++ ["frequently initiates conversations and influences group flow."]
    else terminateParts parts
  pyReplace (pyReplace (pyReplace (joinParts parts) " ," ",") ".." ".") ",." "."

/-! ## Shared helpers for the theorems and their witnesses -/

/-- Adjacent-pairs order check: the boolean form of sortedness. -/
def chainLe (le : α → α → Bool) : List α → Bool
  | [] => true
  | [_] => true
  | a :: b :: rest => le a b && chainLe le (b :: rest)

/-- Boolean check that a report is sorted by influence score in
descending order. -/
def sortedDescByInfluence (rows : List ReportRow) : Bool :=
  chainLe (fun a b => decide (b.influence_score ≤ a.influence_score)) rows

/-- Projection of the final report out of the pipeline result (empty
when the pipeline aborted with an error — an aborted run returns no
partial table). -/
def reportRows : Except String (List ReportRow × List SummaryRow) → List ReportRow
  | Except.ok p => p.1
  | Except.error _ => []

/-- A lenient fallback parser that never resolves anything; used to
instantiate the abstract `pd.to_datetime(..., errors='coerce')`
parameter at concrete inputs. -/
def lenientNone : RawRecord → Option DateTime := fun _ => none

/-- A concrete stand-in for the abstract KMeans fit: every row into
cluster 0. -/
def fitZero : List FeatureRow → Nat → List Nat := fun rows _ => rows.map (fun _ => 0)

/-- A feature row with every numeric field zero, used as concrete input. -/
def zeroRow : FeatureRow :=
  { user := "A", avg_length := 0, median_length := 0, total_chars := 0,
    messages_per_day := 0, avg_response_time_hours := 0, night_activity_ratio := 0,
    avg_exclamations := 0, avg_questions := 0, avg_emojis := 0, uppercase_ratio := 0,
    total_links := 0, link_sharing_ratio := 0, total_messages := 0,
    initiations := 0, initiation_ratio := 0 }

/-- A caller-supplied cluster naming that maps cluster 0 to `Team A`. -/
def customNames : Nat → Option String := fun c => if c == 0 then some "Team A" else none

end ChatInsight

namespace ChatInsight

/-! ## Helper lemmas -/

/-- Dropping by a predicate twice is the same as dropping once. -/
theorem dropWhile_dropWhile (p : Char → Bool) (l : List Char) :
    (l.dropWhile p).dropWhile p = l.dropWhile p := by
  induction l with
  | nil => rfl
  | cons c cs ih =>
    rw [List.dropWhile_cons]
    split
    · exact ih
    · rw [List.dropWhile_cons]
      simp_all

/-- Left trimming is idempotent. -/
theorem trimLeft_trimLeft (l : List Char) : trimLeft (trimLeft l) = trimLeft l :=
  dropWhile_dropWhile isSpaceChar l

/-- Right trimming is idempotent. -/
theorem trimRight_trimRight (l : List Char) : trimRight (trimRight l) = trimRight l := by
  unfold trimRight
  rw [List.reverse_reverse, trimLeft_trimLeft]

/-- Dropping by a predicate never lengthens a list. -/
theorem length_dropWhile_le (p : Char → Bool) (l : List Char) :
    (l.dropWhile p).length ≤ l.length := by
  induction l with
  | nil => simp
  | cons a l ih =>
    rw [List.dropWhile_cons]
    split
    · exact le_trans ih (by simp)
    · simp

/-- A final element that fails the predicate survives a `dropWhile`. -/
theorem dropWhile_append_last {p : Char → Bool} {c : Char} (hc : p c = false)
    (xs : List Char) : (xs ++ [c]).dropWhile p = xs.dropWhile p ++ [c] := by
  induction xs with
  | nil => simp [List.dropWhile_cons, hc]
  | cons a xs ih =>
    rw [List.cons_append, List.dropWhile_cons, List.dropWhile_cons]
    split <;> simp_all

/-- Right trimming a left-trimmed list leaves it left-trimmed. -/
theorem trimLeft_trimRight (l : List Char) (h : trimLeft l = l) :
    trimLeft (trimRight l) = trimRight l := by
  cases l with
  | nil => rfl
  | cons c rest =>
    have hc : isSpaceChar c = false := by
      by_contra hcc
      have hcc' : isSpaceChar c = true := by simpa using hcc
      have h2 : trimLeft (c :: rest) = trimLeft rest := by
        simp [trimLeft, List.dropWhile_cons, hcc']
      rw [h2] at h
      have h3 := congrArg List.length h
      have h4 := length_dropWhile_le isSpaceChar rest
      simp [trimLeft] at h3 h4
      omega
    have hr : trimRight (c :: rest) = c :: (trimLeft rest.reverse).reverse := by
      unfold trimRight
      rw [List.reverse_cons, trimLeft, dropWhile_append_last hc, List.reverse_append]
      rfl
    rw [hr]
    simp [trimLeft, List.dropWhile_cons, hc]

/-- Python stripping is idempotent (character-list form). -/
theorem stripL_stripL (l : List Char) : stripL (stripL l) = stripL l := by
  unfold stripL
  rw [trimLeft_trimRight (trimLeft l) (trimLeft_trimLeft l), trimRight_trimRight]

/-- Python stripping is idempotent. -/
theorem strip_strip (s : String) : strip (strip s) = strip s :=
  congrArg String.mk (stripL_stripL s.data)

/-- Building a timestamp only succeeds with a valid one. -/
theorem mkValid_valid {y m d h mi : Nat} {t : DateTime}
    (hv : mkValid y m d h mi = some t) : t.valid = true := by
  simp only [mkValid] at hv
  split at hv
  · cases hv
    assumption
  · exact absurd hv (by simp)

/-- Every fixed-layout parser only produces valid timestamps. -/
theorem fmt_valid_of_mem :
    ∀ f ∈ formatList, ∀ (r : RawRecord) (t : DateTime), f r = some t → t.valid = true := by
  intro f hf r t h
  simp only [formatList, List.mem_cons, List.not_mem_nil, or_false] at hf
  rcases hf with rfl | rfl | rfl | rfl | rfl | rfl | rfl <;>
    first
    | (unfold fmtDMY12 at h; split at h
       · split at h
         · exact mkValid_valid h
         · exact absurd h (by simp)
       · exact absurd h (by simp))
    | (unfold fmtDMy12 at h; split at h
       · split at h
         · exact mkValid_valid h
         · exact absurd h (by simp)
       · exact absurd h (by simp))
    | (unfold fmtMDY12 at h; split at h
       · split at h
         · exact mkValid_valid h
         · exact absurd h (by simp)
       · exact absurd h (by simp))
    | (unfold fmtMDy12 at h; split at h
       · split at h
         · exact mkValid_valid h
         · exact absurd h (by simp)
       · exact absurd h (by simp))
    | (unfold fmtISO24 at h; split at h
       · split at h
         · exact mkValid_valid h
         · exact absurd h (by simp)
       · exact absurd h (by simp))
    | (unfold fmtDMY24 at h; split at h
       · split at h
         · exact mkValid_valid h
         · exact absurd h (by simp)
       · exact absurd h (by simp))
    | (unfold fmtMDY24 at h; split at h
       · split at h
         · exact mkValid_valid h
         · exact absurd h (by simp)
       · exact absurd h (by simp))

/-- A successful `tryFormats` comes from one of the tried formats. -/
theorem tryFormats_mem :
    ∀ (fs : List (RawRecord → Option DateTime)) (r : RawRecord) (t : DateTime),
      tryFormats fs r = some t → ∃ f ∈ fs, f r = some t := by
  intro fs
  induction fs with
  | nil => intro r t h; exact absurd h (by simp [tryFormats])
  | cons f fs ih =>
    intro r t h
    rw [tryFormats] at h
    cases hf : f r with
    | some t2 =>
      rw [hf] at h
      cases h
      exact ⟨f, by simp, hf⟩
    | none =>
      rw [hf] at h
      obtain ⟨g, hg, hgr⟩ := ih r t h
      exact ⟨g, by simp [hg], hgr⟩

/-- The format loop returns the earliest format that matches. -/
theorem tryFormats_first :
    ∀ (fs : List (RawRecord → Option DateTime)) (r : RawRecord) (i : Nat)
      (hi : i < fs.length),
      (∀ j (hj : j < i), fs.get ⟨j, hj.trans hi⟩ r = none) →
      ∀ t, fs.get ⟨i, hi⟩ r = some t → tryFormats fs r = some t := by
  intro fs
  induction fs with
  | nil => intro r i hi; exact absurd hi (by simp)
  | cons f fs ih =>
    intro r i hi hprev t hget
    match i with
    | 0 =>
      rw [tryFormats]
      simp only [List.get] at hget
      rw [hget]
    | Nat.succ i2 =>
      have hf : f r = none := hprev 0 (Nat.succ_pos _)
      rw [tryFormats, hf]
      exact ih r i2 (Nat.lt_of_succ_lt_succ hi)
        (fun j hj => hprev (j + 1) (Nat.succ_lt_succ hj)) t hget

/-- When no format matches, the format loop yields nothing. -/
theorem tryFormats_all_none :
    ∀ (fs : List (RawRecord → Option DateTime)) (r : RawRecord),
      (∀ i (hi : i < fs.length), fs.get ⟨i, hi⟩ r = none) →
      tryFormats fs r = none := by
  intro fs
  induction fs with
  | nil => intro r _; rfl
  | cons f fs ih =>
    intro r h
    have hf : f r = none := h 0 (Nat.succ_pos _)
    rw [tryFormats, hf]
    exact ih r (fun i hi => h (i + 1) (Nat.succ_lt_succ hi))

/-- Collected records come from some line of the input. -/
theorem mem_collectRecords {lenient : RawRecord → Option DateTime}
    {ls : List (List Char)} {m : Message} (hm : m ∈ collectRecords lenient ls) :
    ∃ l ∈ ls, recordOfLine lenient l = some m := by
  induction ls with
  | nil => simp [collectRecords] at hm
  | cons l ls ih =>
    rw [collectRecords] at hm
    cases h : recordOfLine lenient l with
    | some m2 =>
      rw [h] at hm
      rcases List.mem_cons.mp hm with rfl | hm2
      · exact ⟨l, by simp, h⟩
      · obtain ⟨l2, hl2, h2⟩ := ih hm2
        exact ⟨l2, by simp [hl2], h2⟩
    | none =>
      rw [h] at hm
      obtain ⟨l2, hl2, h2⟩ := ih hm
      exact ⟨l2, by simp [hl2], h2⟩

/-- Shape of a successfully processed line: a regex match whose
timestamp resolved, with trimmed user and message fields. -/
theorem recordOfLine_some {lenient : RawRecord → Option DateTime}
    {l : List Char} {m : Message} (h : recordOfLine lenient l = some m) :
    ∃ r t, matchLine l = some r ∧ resolveTimestamp lenient r = some t ∧
      m = ⟨t, strip r.user, strip r.message⟩ := by
  unfold recordOfLine at h
  split at h
  · exact absurd h (by simp)
  · split at h
    · exact absurd h (by simp)
    · cases h
      exact ⟨_, _, by assumption, by assumption, rfl⟩

end ChatInsight

namespace ChatInsight

set_option maxRecDepth 8000

/-! ## More helper lemmas -/

/-- The diff-column flags agree with the direct gap description on
every non-first row. -/
theorem flagList_eq_specGapFlags :
    ∀ (rest : List Message) (prev : Message) (i : Nat),
      flagList (time_diffs.diffsAfter prev rest) (i + 1) = specGapFlags prev rest := by
  intro rest
  induction rest with
  | nil => intro prev i; rfl
  | cons c cs ih =>
    intro prev i
    rw [time_diffs.diffsAfter, flagList, specGapFlags]
    congr 1
    · show (decide (60 < c.timestamp.toMinutes - prev.timestamp.toMinutes) || (i + 1 == 0))
        = decide (prev.timestamp.toMinutes + 60 < c.timestamp.toMinutes)
      have h0 : ((i : Nat) + 1 == 0) = false := by simp
      rw [h0, Bool.or_false]
      simp only [decide_eq_decide]
      omega
    · exact ih c (i + 1)

/-- The source's `is_conversation_start` column equals the
specification's description of conversation starts. -/
theorem is_conversation_start_eq_spec (l : List Message) :
    is_conversation_start l = specStartFlags l := by
  cases l with
  | nil => rfl
  | cons m rest =>
    rw [is_conversation_start, time_diffs, flagList, specStartFlags]
    congr 1
    exact flagList_eq_specGapFlags rest m 0

/-- Initiation counts computed by the source equal the specification's
counts. -/
theorem initiationsOf_eq_spec (msgs : List Message) (u : String) :
    initiationsOf msgs u = specInitCount msgs u := by
  unfold initiationsOf specInitCount
  simp only [is_conversation_start_eq_spec]

/-- Inserting into a list adds one matching element when the inserted
element matches. -/
theorem countP_insertLe (le : α → α → Bool) (p : α → Bool) (a : α) :
    ∀ l : List α, (insertLe le a l).countP p = (if p a then 1 else 0) + l.countP p := by
  intro l
  induction l with
  | nil => simp [insertLe, List.countP_cons, List.countP_nil]
  | cons b bs ih =>
    rw [insertLe]
    split
    · rw [List.countP_cons, List.countP_cons]
      omega
    · rw [List.countP_cons, List.countP_cons, ih]
      omega

/-- Sorting preserves the number of elements satisfying any predicate. -/
theorem countP_sortBy (le : α → α → Bool) (p : α → Bool) :
    ∀ l : List α, (sortBy le l).countP p = l.countP p := by
  intro l
  induction l with
  | nil => rfl
  | cons a as ih =>
    rw [sortBy, countP_insertLe, ih, List.countP_cons]
    omega

/-- Inserting into a chain-ordered list keeps it chain-ordered, for any
total comparison. -/
theorem chainLe_insertLe (le : α → α → Bool) (htot : ∀ a b, (le a b || le b a) = true)
    (a : α) : ∀ l, chainLe le l = true → chainLe le (insertLe le a l) = true := by
  intro l
  induction l with
  | nil => intro _; rfl
  | cons b bs ih =>
    intro h
    rw [insertLe]
    cases hab : le a b with
    | true =>
      simp only [hab, if_true]
      rw [chainLe]
      simp [hab, h]
    | false =>
      have hba : le b a = true := by
        have := htot a b
        rw [hab] at this
        simpa using this
      simp only [hab, Bool.false_eq_true, if_false]
      cases bs with
      | nil => simp [insertLe, chainLe, hba]
      | cons c cs =>
        rw [chainLe, Bool.and_eq_true] at h
        have hbc : le b c = true := h.1
        have h2 : chainLe le (c :: cs) = true := h.2
        have hi := ih h2
        rw [insertLe] at hi ⊢
        cases hac : le a c with
        | true =>
          simp only [hac, if_true] at hi ⊢
          rw [chainLe]
          simp only [Bool.and_eq_true]
          exact ⟨hba, by rw [chainLe]; simp [hac, h2]⟩
        | false =>
          simp only [hac, Bool.false_eq_true, if_false] at hi ⊢
          rw [chainLe]
          simp only [Bool.and_eq_true]
          exact ⟨hbc, hi⟩

/-- Insertion sort sorts, for any total comparison. -/
theorem chainLe_sortBy (le : α → α → Bool) (htot : ∀ a b, (le a b || le b a) = true) :
    ∀ l : List α, chainLe le (sortBy le l) = true := by
  intro l
  induction l with
  | nil => rfl
  | cons a as ih => exact chainLe_insertLe le htot a _ ih

end ChatInsight

namespace ChatInsight

set_option maxRecDepth 8000

/-! ## The claims -/

/-- C1: for every author feature row, the influence score equals
`0.4 * min(messages_per_day / 5, 1) + 0.3 * (1 - min(avg_response_time_hours / 24, 1))
+ 0.3 * min(initiation_ratio * 10, 1)` clamped to the unit interval,
and consequently always lies between 0 and 1 inclusive. -/
theorem influence_score_formula_and_bounds (f : FeatureRow) :
    calculate_influence_score f =
      min (max (0.4 * min (f.messages_per_day / 5) 1
        + 0.3 * (1 - min (f.avg_response_time_hours / 24) 1)
        + 0.3 * min (f.initiation_ratio * 10) 1) 0) 1 ∧
    0 ≤ calculate_influence_score f ∧ calculate_influence_score f ≤ 1 := by
  simp only [calculate_influence_score]
  refine ⟨?_, le_min (le_max_right _ _) zero_le_one, min_le_right _ _⟩
  ring_nf

/-- C2: parsing fails with the empty-result error exactly when zero
records were collected, that error is the only one the parser raises,
and on such input the whole analyze pipeline aborts with that error
before feature extraction, returning no partial table. -/
theorem empty_parse_is_the_only_input_error
    (fit : List FeatureRow → Nat → List Nat) (lenient : RawRecord → Option DateTime)
    (content : String) (k : Nat) (names : Option (Nat → Option String)) :
    (parse_whatsapp_chat lenient content = Except.error noMessagesError ↔
      extractRecords lenient content = []) ∧
    (∀ e, parse_whatsapp_chat lenient content = Except.error e → e = noMessagesError) ∧
    (extractRecords lenient content = [] →
      analyze_chat_streamlit fit lenient content k names = Except.error noMessagesError) := by
  cases h : extractRecords lenient content with
  | nil =>
    refine ⟨by simp [parse_whatsapp_chat, h], ?_, ?_⟩
    · intro e he
      simp [parse_whatsapp_chat, h] at he
      exact he.symm
    · intro _
      simp [analyze_chat_streamlit, parse_whatsapp_chat, h]
  | cons a l =>
    refine ⟨by simp [parse_whatsapp_chat, h], ?_, ?_⟩
    · intro e he
      simp [parse_whatsapp_chat, h] at he
    · intro h2
      exact absurd h2 (by simp)

/-- Witness for C2 at a concrete unparsable input. -/
theorem empty_parse_is_the_only_input_error_witness :
    analyze_chat_streamlit fitZero lenientNone "not a chat" 5 none =
      Except.error noMessagesError :=
  (empty_parse_is_the_only_input_error fitZero lenientNone "not a chat" 5 none).2.2
    (by decide)

/-- C3: a message counts as a conversation initiation iff it is the
first message of the whole transcript in chronological order or the
gap since the immediately preceding message by any author exceeds one
hour; each author's initiation ratio is their initiating-message count
divided by their total message count. -/
theorem initiation_semantics (msgs : List Message) :
    is_conversation_start (sortByTime msgs) = specStartFlags (sortByTime msgs) ∧
    calculate_conversation_initiation_features msgs =
      (uniqueUsers msgs).map (fun u =>
        (u, (msgsOf msgs u).length, specInitCount msgs u,
          (specInitCount msgs u : ℚ) / ((msgsOf msgs u).length : ℚ))) := by
  refine ⟨is_conversation_start_eq_spec _, ?_⟩
  simp only [calculate_conversation_initiation_features, initiationsOf_eq_spec]

/-- C4: every author of the parsed messages gets a feature row; an
author with a single message has zero average response time, and an
author absent from the link or night sub-tables gets 0 for those
fields. -/
theorem feature_completeness (msgs : List Message) :
    ((extract_all_features msgs).map (·.user) = uniqueUsers msgs) ∧
    ∀ u, u ∈ uniqueUsers msgs →
      ∃ row, row ∈ extract_all_features msgs ∧ row.user = u ∧
        ((msgsOf msgs u).length = 1 → row.avg_response_time_hours = 0) ∧
        ((∀ m ∈ msgsOf msgs u, hasLink m.message = false) →
          row.total_links = 0 ∧ row.link_sharing_ratio = 0) ∧
        ((∀ m ∈ msgsOf msgs u, (22 ≤ m.timestamp.hour || m.timestamp.hour < 6) = false) →
          row.night_activity_ratio = 0) := by
  constructor
  · show (List.map (featureRowFor msgs) (uniqueUsers msgs)).map (·.user) = uniqueUsers msgs
    rw [List.map_map]
    exact List.map_id _
  · intro u hu
    refine ⟨featureRowFor msgs u, List.mem_map_of_mem _ hu, rfl, ?_, ?_, ?_⟩
    · intro h1
      have hlen : ((sortByTime msgs).filter (fun m => m.user == u)).length = 1 := by
        calc ((sortByTime msgs).filter (fun m => m.user == u)).length
            = (sortByTime msgs).countP (fun m => m.user == u) :=
              (List.countP_eq_length_filter _ _).symm
          _ = msgs.countP (fun m => m.user == u) := countP_sortBy _ _ _
          _ = (msgsOf msgs u).length := List.countP_eq_length_filter _ _
          _ = 1 := h1
      obtain ⟨x, hx⟩ := List.length_eq_one.mp hlen
      simp only [featureRowFor]
      rw [hx]
      simp [consecDiffs]
    · intro h2
      have hcount : (msgsOf msgs u).countP (fun m => hasLink m.message) = 0 :=
        List.countP_eq_zero.mpr (by intro m hm; simp [h2 m hm])
      constructor
      · show (featureRowFor msgs u).total_links = 0
        simp only [featureRowFor]
        exact hcount
      · show (featureRowFor msgs u).link_sharing_ratio = 0
        simp only [featureRowFor]
        rw [hcount]
        simp
    · intro h3
      have hn : (msgsOf msgs u).countP
          (fun m => 22 ≤ m.timestamp.hour || m.timestamp.hour < 6) = 0 :=
        List.countP_eq_zero.mpr (by intro m hm; simp [h3 m hm])
      show (featureRowFor msgs u).night_activity_ratio = 0
      simp only [featureRowFor]
      rw [hn]
      simp

/-- Witness for C4 at a concrete single-message transcript. -/
theorem feature_completeness_witness :
    ∃ row, row ∈ extract_all_features [⟨⟨2024, 1, 1, 10, 0⟩, "Alice", "hi"⟩] ∧
      row.user = "Alice" ∧
      ((msgsOf [⟨⟨2024, 1, 1, 10, 0⟩, "Alice", "hi"⟩] "Alice").length = 1 →
        row.avg_response_time_hours = 0) ∧
      ((∀ m ∈ msgsOf [⟨⟨2024, 1, 1, 10, 0⟩, "Alice", "hi"⟩] "Alice",
          hasLink m.message = false) →
        row.total_links = 0 ∧ row.link_sharing_ratio = 0) ∧
      ((∀ m ∈ msgsOf [⟨⟨2024, 1, 1, 10, 0⟩, "Alice", "hi"⟩] "Alice",
          (22 ≤ m.timestamp.hour || m.timestamp.hour < 6) = false) →
        row.night_activity_ratio = 0) :=
  (feature_completeness [⟨⟨2024, 1, 1, 10, 0⟩, "Alice", "hi"⟩]).2 "Alice" (by decide)

/-- C5: the generated profile text is a deterministic function of the
feature row and cluster label, assembling clauses in fixed order with
exactly the thresholds the specification enumerates, with doubled
punctuation collapsed at the end (`profile_spec` records those
thresholds verbatim from the specification). -/
theorem behavior_profile_matches_spec (f : FeatureRow) (c : Nat) :
    generate_behavior_profile f c = profile_spec f c := by
  simp only [generate_behavior_profile, profile_spec, ge_iff_le]
  ring_nf

/-- C6 (amended): cluster naming resolves labels 0-4 to the five
canonical names when no custom mapping is supplied and renders
unmapped labels as `Cluster {id}`; a caller-supplied mapping overrides
the defaults in the `cluster_name` column of the report, but the
generated profile text always uses the default naming (it is
independent of the supplied mapping). -/
theorem cluster_naming_amended :
    (get_cluster_name 0 none = "Regular Participants" ∧
     get_cluster_name 1 none = "Active Conversationalists" ∧
     get_cluster_name 2 none = "Information Broadcasters" ∧
     get_cluster_name 3 none = "Silent Observers" ∧
     get_cluster_name 4 none = "Night Owls") ∧
    (∀ c : Nat, 5 ≤ c → get_cluster_name c none = "Cluster " ++ toString c) ∧
    (∀ (m : Nat → Option String) (c : Nat),
      get_cluster_name c (some m) = (m c).getD ("Cluster " ++ toString c)) ∧
    (∀ (rows : List (FeatureRow × Nat)) (names : Option (Nat → Option String)),
      (build_final_report (generate_profiles rows) names).map (·.cluster_name)
        = rows.map (fun r => get_cluster_name r.2 names) ∧
      (build_final_report (generate_profiles rows) names).map (·.behavior_profile)
        = rows.map (fun r => generate_behavior_profile r.1 r.2)) := by
  refine ⟨⟨rfl, rfl, rfl, rfl, rfl⟩, ?_, fun m c => rfl, ?_⟩
  · intro c hc
    obtain ⟨k, rfl⟩ : ∃ k, c = k + 5 := ⟨c - 5, by omega⟩
    rfl
  · intro rows names
    constructor
    · simp [build_final_report, generate_profiles, List.map_map]
    · simp [build_final_report, generate_profiles, List.map_map]

/-- Witness for C6 at a concrete out-of-range label. -/
theorem cluster_naming_amended_witness :
    get_cluster_name 7 none = "Cluster " ++ toString 7 :=
  cluster_naming_amended.2.1 7 (by decide)

/-- Counterexample for C6 as stated: with a caller-supplied mapping
sending cluster 0 to `Team A`, the `cluster_name` column shows
`Team A` but the generated profile text still names the default
`Regular Participants` group, so the mapping does not override the
naming throughout the analysis output. -/
theorem cluster_naming_counterexample :
    get_cluster_name 0 (some customNames) = "Team A" ∧
    (build_final_report (generate_profiles [(zeroRow, 0)]) (some customNames)).map
        (·.cluster_name) = ["Team A"] ∧
    (build_final_report (generate_profiles [(zeroRow, 0)]) (some customNames)).map
        (·.behavior_profile) =
      ["This user belongs to the \x27Regular Participants\x27 group. This user is low activity, prefers short messages, emotionally reserved, responds quickly."] := by
  refine ⟨rfl, rfl, ?_⟩
  simp only [build_final_report, generate_profiles, List.map]
  norm_num [generate_behavior_profile, calculate_influence_score, zeroRow, min_def, max_def]
  rfl

/-- C7: a matched record's timestamp is resolved by trying the seven
layouts of `formatList` in source order, taking the first that
matches, then falling back to the lenient parse; a record whose
timestamp no rule resolves is dropped without failing the parse. -/
theorem timestamp_fallback_order (lenient : RawRecord → Option DateTime)
    (r : RawRecord) :
    (∀ i (hi : i < formatList.length),
      (∀ j (hj : j < i), formatList.get ⟨j, hj.trans hi⟩ r = none) →
      ∀ t, formatList.get ⟨i, hi⟩ r = some t →
        resolveTimestamp lenient r = some t) ∧
    ((∀ i (hi : i < formatList.length), formatList.get ⟨i, hi⟩ r = none) →
      resolveTimestamp lenient r = lenient r) ∧
    (∀ (l : List Char) (rest : List (List Char)) (rm : RawRecord),
      matchLine l = some rm → resolveTimestamp lenient rm = none →
      collectRecords lenient (l :: rest) = collectRecords lenient rest) := by
  refine ⟨?_, ?_, ?_⟩
  · intro i hi hprev t hget
    unfold resolveTimestamp
    rw [tryFormats_first formatList r i hi hprev t hget]
  · intro hall
    unfold resolveTimestamp
    rw [tryFormats_all_none formatList r hall]
  · intro l rest rm h1 h2
    simp [collectRecords, recordOfLine, h1, h2]

/-- Witness for C7: a concrete ISO-format record resolved by the fifth
layout after the first four fail, and a concrete matched line with an
unresolvable timestamp (minute 99) dropped from the collected records
while parsing continues. -/
theorem timestamp_fallback_order_witness :
    resolveTimestamp lenientNone
        ⟨DateParts.iso 2024 1 13, ⟨15, 30, none⟩, "Carl", "ok"⟩ =
      some ⟨2024, 1, 13, 15, 30⟩ ∧
    collectRecords lenientNone
        [("01/01/2024, 10:99 - A: b").data, ("2024-01-13, 15:30 - Carl: ok").data] =
      collectRecords lenientNone [("2024-01-13, 15:30 - Carl: ok").data] :=
  ⟨(timestamp_fallback_order lenientNone
      ⟨DateParts.iso 2024 1 13, ⟨15, 30, none⟩, "Carl", "ok"⟩).1 4 (by decide)
      (by decide) ⟨2024, 1, 13, 15, 30⟩ (by decide),
   (timestamp_fallback_order lenientNone
      ⟨DateParts.iso 2024 1 13, ⟨15, 30, none⟩, "Carl", "ok"⟩).2.2
      ("01/01/2024, 10:99 - A: b").data [("2024-01-13, 15:30 - Carl: ok").data]
      ⟨DateParts.slash 1 1 2024 4, ⟨10, 99, none⟩, "A", "b"⟩ (by decide) (by decide)⟩

/-- C8 (amended): every record produced by the parser carries a valid
timezone-naive timestamp (given that the lenient fallback only
produces valid ones), and its author and text fields are
whitespace-trimmed — but they may be empty, so the non-emptiness part
of the original claim does not hold. -/
theorem parsed_record_invariant_amended (lenient : RawRecord → Option DateTime)
    (content : String) (m : Message)
    (hlen : ∀ r t, lenient r = some t → t.valid = true)
    (hm : m ∈ extractRecords lenient content) :
    m.timestamp.valid = true ∧ strip m.user = m.user ∧ strip m.message = m.message := by
  obtain ⟨l, _, hrec⟩ := mem_collectRecords hm
  obtain ⟨r, t, _, hres, rfl⟩ := recordOfLine_some hrec
  refine ⟨?_, strip_strip _, strip_strip _⟩
  unfold resolveTimestamp at hres
  cases htf : tryFormats formatList r with
  | some t2 =>
    rw [htf] at hres
    cases hres
    obtain ⟨f, hf, hfr⟩ := tryFormats_mem _ _ _ htf
    exact fmt_valid_of_mem f hf _ _ hfr
  | none =>
    rw [htf] at hres
    exact hlen r t hres

/-- Witness for C8 at a concrete well-formed line. -/
theorem parsed_record_invariant_amended_witness :
    (⟨⟨2024, 1, 13, 15, 30⟩, "Carl", "ok"⟩ : Message).timestamp.valid = true ∧
    strip (⟨⟨2024, 1, 13, 15, 30⟩, "Carl", "ok"⟩ : Message).user =
      (⟨⟨2024, 1, 13, 15, 30⟩, "Carl", "ok"⟩ : Message).user ∧
    strip (⟨⟨2024, 1, 13, 15, 30⟩, "Carl", "ok"⟩ : Message).message =
      (⟨⟨2024, 1, 13, 15, 30⟩, "Carl", "ok"⟩ : Message).message :=
  parsed_record_invariant_amended lenientNone "2024-01-13, 15:30 - Carl: ok"
    ⟨⟨2024, 1, 13, 15, 30⟩, "Carl", "ok"⟩
    (fun r t h => Option.noConfusion h) (by decide)

/-- Counterexample for C8 as stated: the record pattern accepts a line
whose author capture is empty, so the parser emits a record whose
author field is the empty string after trimming. -/
theorem parsed_record_counterexample :
    extractRecords lenientNone "01/01/2024, 10:00 - : hi" =
      [⟨⟨2024, 1, 1, 10, 0⟩, "", "hi"⟩] ∧
    (⟨⟨2024, 1, 1, 10, 0⟩, "", "hi"⟩ : Message).user = "" := by
  exact ⟨by decide, rfl⟩

/-- C9: when the requested number of clusters exceeds the number of
author rows, clustering fails with the KMeans configuration error —
propagated uncaught to the caller — rather than silently reducing `k`
or truncating the result; the analyze pipeline surfaces the same
error. -/
theorem clustering_k_exceeds_users_error :
    (∀ (fit : List FeatureRow → Nat → List Nat) (features_df : List FeatureRow)
       (n_clusters : Nat), features_df.length < n_clusters →
      perform_clustering fit features_df n_clusters = Except.error kmeansError ∧
      assign_clusters fit features_df n_clusters = Except.error kmeansError) ∧
    (∀ (fit : List FeatureRow → Nat → List Nat) (lenient : RawRecord → Option DateTime)
       (content : String) (k : Nat) (names : Option (Nat → Option String)),
      (extract_all_features (extractRecords lenient content)).length < k →
      extractRecords lenient content ≠ [] →
      analyze_chat_streamlit fit lenient content k names = Except.error kmeansError) := by
  constructor
  · intro fit features_df n_clusters h
    constructor
    · simp [perform_clustering, h]
    · simp [assign_clusters, perform_clustering, h]
  · intro fit lenient content k names h hne
    unfold analyze_chat_streamlit parse_whatsapp_chat
    cases hrec : extractRecords lenient content with
    | nil => exact absurd hrec hne
    | cons a l =>
      rw [hrec] at h
      simp only [hrec, List.isEmpty_cons, if_false]
      simp [assign_clusters, perform_clustering, h]

/-- Witness for C9: one author, five requested clusters. -/
theorem clustering_k_exceeds_users_error_witness :
    analyze_chat_streamlit fitZero lenientNone "01/01/2024, 10:00 - Alice: hi" 5 none =
      Except.error kmeansError :=
  clustering_k_exceeds_users_error.2 fitZero lenientNone
    "01/01/2024, 10:00 - Alice: hi" 5 none (by decide) (by decide)

/-- C10: the per-author table returned by `analyze_chat_streamlit` is
already sorted by influence score in descending order (an aborted run
returns no table, represented by the empty report, which is trivially
sorted). -/
theorem final_report_sorted_by_influence
    (fit : List FeatureRow → Nat → List Nat) (lenient : RawRecord → Option DateTime)
    (content : String) (k : Nat) (names : Option (Nat → Option String)) :
    sortedDescByInfluence
      (reportRows (analyze_chat_streamlit fit lenient content k names)) = true := by
  unfold analyze_chat_streamlit
  cases hp : parse_whatsapp_chat lenient content with
  | error e => simp [reportRows, sortedDescByInfluence, chainLe]
  | ok df =>
    dsimp only
    cases hc : assign_clusters fit (extract_all_features df) k with
    | error e => simp [reportRows, sortedDescByInfluence, chainLe]
    | ok clustered =>
      simp only [reportRows, sort_by_influence, sortedDescByInfluence]
      exact chainLe_sortBy
        (fun a b : ReportRow => decide (b.influence_score ≤ a.influence_score))
        (fun a b => by
          simp only [Bool.or_eq_true, decide_eq_true_eq]
          exact le_total _ _) _

end ChatInsight
